import Mathlib

/-!
# Query assembly in the weaviate Go client

A shallow embedding of the GraphQL query builders

* `GetBuilder` (`weaviate/graphql/get.go`) and
* `AggregateBuilder` (`v4/weaviate/graphql/aggregate.go`),

and of the three requests of `weaviateclient/misc/misc.go`, followed by theorems
about the strings the builders build and about the results the requests return.

Go strings are embedded as Lean `String`s (the valid UTF-8 ones), Go `int`s as
`Int` (no arithmetic is performed on them, they are only printed), and a Go
pointer that may be `nil` as an `Option`.  The connection held by a builder is
not read by `build` and is left out.

`GetBuilder.createFieldsClause` calls `append` on sub-slices of the slice held by
the builder, so the slice `withFields` is embedded together with the spare room
of its backing array (`Slice`), and `createFieldsClause` and `build` return the
builder as the call leaves it next to the string.
-/

namespace Graphql

/-! ## Go library functions -/

/-- Go `strings.Join(elems, sep)`. -/
def stringsJoin : List String → String → String
  | [], _ => ""
  | [a], _ => a
  | a :: b :: rest, sep => a ++ sep ++ stringsJoin (b :: rest) sep

/-- Go `unicode.IsSpace`: the runes with the Unicode property White_Space, that is
U+0009 to U+000D, U+0020, U+0085, U+00A0, U+1680, U+2000 to U+200A, U+2028, U+2029,
U+202F, U+205F and U+3000. -/
def unicodeIsSpace (r : Char) : Bool :=
  let n := r.toNat
  (9 ≤ n && n ≤ 13) || n == 0x20 || n == 0x85 || n == 0xA0 || n == 0x1680 ||
    (0x2000 ≤ n && n ≤ 0x200A) || n == 0x2028 || n == 0x2029 || n == 0x202F ||
    n == 0x205F || n == 0x3000

/-- Go `strings.TrimSpace`: the string without its leading and trailing white space. -/
def stringsTrimSpace (s : String) : String :=
  ⟨(s.data.dropWhile unicodeIsSpace).rdropWhile unicodeIsSpace⟩

/-- The `%v` and `%d` verbs of `fmt` on an `int`: its decimal numeral. -/
def fmtInt (n : Int) : String := toString n

/-! ## Go slices -/

/-- A Go slice together with its backing array, seen from the first element of the
slice: `vis` are the elements `s[0], ..., s[len(s)-1]`, `spare` the array slots
between `len(s)` and `cap(s)`. -/
structure Slice (α : Type) where
  vis : List α := []
  spare : List α := []

namespace Slice
variable {α : Type}

/-- Go `len(s)`. -/
def len (s : Slice α) : Nat := s.vis.length

/-- Go `cap(s)`. -/
def cap (s : Slice α) : Nat := s.vis.length + s.spare.length

/-- The slice a variadic call `f(x0, ..., xn)` passes: a fresh array, exactly full. -/
def ofList (xs : List α) : Slice α := { vis := xs, spare := [] }

/-- Go `s[:hi]` for `hi ≤ len(s)`: the same array, the elements from `hi` on become
spare room. -/
def upTo (s : Slice α) (hi : Nat) : Slice α :=
  { vis := s.vis.take hi, spare := s.vis.drop hi ++ s.spare }

/-- The elements of Go `s[lo:]`. -/
def elemsFrom (s : Slice α) (lo : Nat) : List α := s.vis.drop lo

/-- Go `append(s, xs...)`.  When the spare room of `s` holds `xs`, the elements are
written into the array of `s` (the flag is `true`); otherwise the result lives in a
fresh array (whose spare room, never read here, is left empty). -/
def append (s : Slice α) (xs : List α) : Slice α × Bool :=
  if xs.length ≤ s.spare.length then
    ({ vis := s.vis ++ xs, spare := s.spare.drop xs.length }, true)
  else
    ({ vis := s.vis ++ xs, spare := [] }, false)

/-- What a slice header of length `n` sees of the array of `r`, both starting at the
same array element. -/
def viewOf (n : Nat) (r : Slice α) : Slice α :=
  { vis := (r.vis ++ r.spare).take n, spare := (r.vis ++ r.spare).drop n }

end Slice

/-! ## Fields and clause builders -/

/-- Go `type Field struct { Name string; Fields []Field }`, as `get.go` constructs it
(`Field{Name: "_additional", Fields: []Field{generate}}`).  The children are embedded
by value: a parent owns its children exclusively (spec, section 3), so the only
`append` onto a children slice, in `createFieldsClause`, is observed through its
result alone. -/
inductive Field where
  | mk (Name : String) (Fields : List Field)

/-- Go `f.Name`. -/
def Field.Name : Field → String
  | .mk n _ => n

/-- Go `f.Fields`. -/
def Field.Fields : Field → List Field
  | .mk _ fs => fs

mutual
/-- Modelled from the spec: `Field.build` is declared outside the files studied here.
Section 4.1: "Serializes a Field as `name { child1 child2 ... }` when children exist,
or bare `name` when a leaf, or empty string when both name and children are absent.
Whitespace between siblings is a single space; no trailing/leading whitespace";
section 3: a field that serializes to the empty string is "omitted from output by its
parent". -/
def Field.build : Field → String
  | .mk n fs =>
    if fs.isEmpty then n
    else
      (if n = "" then "" else n ++ " ") ++
        "\x7b " ++ stringsJoin ((Field.buildAll fs).filter (fun s => s ≠ "")) " " ++ " \x7d"
/-- The serializations of a list of fields, in order. -/
def Field.buildAll : List Field → List String
  | [] => []
  | f :: fs => Field.build f :: Field.buildAll fs
end

/-- Modelled from the spec: the clause builder types (`filters.WhereBuilder`,
`NearTextArgumentBuilder`, `BM25ArgumentBuilder`, `HybridArgumentBuilder`,
`NearVectorArgumentBuilder`, `NearObjectArgumentBuilder`, `AskArgumentBuilder`,
`NearImageArgumentBuilder`, `GroupArgumentBuilder`, `GroupByArgumentBuilder`,
`WhereArgumentBuilder`) are declared outside the files studied here.  Section 4.2:
each "exposes a single `build() -> string` contract producing a self-contained"
fragment.  A clause builder is represented by the fragment its `build()` (for
`filters.WhereBuilder`, its `String()`) returns. -/
structure ClauseBuilder where
  build : String
  deriving DecidableEq

/-- Modelled from the spec: `SortBuilder`, which `WithSort` wraps around its arguments
(`&SortBuilder{sort}`), is declared outside the files studied here; by section 4.2 it
has the same `build() -> string` contract.  It is represented by the fragment that
the builder wrapping the given sort arguments builds. -/
structure SortBuilder where
  build : String
  deriving DecidableEq

/-- Modelled from the spec: `GenerativeSearchBuilder` is declared outside the files
studied here; `get.go` uses its `build()` as a `Field` ("an optional post-processing
Field", section 3).  It is represented by the field its `build()` returns. -/
structure GenerativeSearchBuilder where
  build : Field

/-- Functions the builders call that are declared outside the files studied here. -/
structure Deps where
  /-- The method `Field.build`. -/
  fieldBuild : Field → String
  /-- The `%q` verb of `fmt` on a string (`strconv.Quote`). -/
  quote : String → String

/-- The escape `strconv.Quote` writes for one rune, for the double quote, the
backslash, the control characters with a short escape, and printable runes (kept as
they are). -/
def quoteRune (r : Char) : String :=
  if r = '"' then "\\\""
  else if r = '\\' then "\\\\"
  else if r = '\n' then "\\n"
  else if r = '\r' then "\\r"
  else if r = '\t' then "\\t"
  else String.singleton r

/-- Go `strconv.Quote` on strings of printable runes and the escapes of `quoteRune`. -/
def strconvQuote (s : String) : String :=
  "\"" ++ String.join (s.data.map quoteRune) ++ "\""

/-- The collaborators with `Field.build` as the specification describes it. -/
def specDeps : Deps := { fieldBuild := Field.build, quote := strconvQuote }

/-! ## `get.go` -/

/-- Go `func joinFields(fields []Field) string`: the loop collecting `strFields`. -/
def joinFieldsLoop (d : Deps) : List Field → List String
  | [] => []
  | f :: fs =>
    let str := stringsTrimSpace (d.fieldBuild f)
    if 0 < str.length then str :: joinFieldsLoop d fs else joinFieldsLoop d fs

/-- Go `func joinFields(fields []Field) string`. -/
def joinFields (d : Deps) (fields : List Field) : String :=
  stringsJoin (joinFieldsLoop d fields) " "

/-- Go `type GetBuilder struct`. -/
structure GetBuilder where
  className : String := ""
  withFields : Slice Field := {}
  includesFilterClause : Bool := false
  includesLimit : Bool := false
  limit : Int := 0
  includesOffset : Bool := false
  offset : Int := 0
  includesAfter : Bool := false
  after : String := ""
  consistencyLevel : String := ""
  withWhereFilter : Option ClauseBuilder := none
  withNearTextFilter : Option ClauseBuilder := none
  withNearVectorFilter : Option ClauseBuilder := none
  withNearObjectFilter : Option ClauseBuilder := none
  withGroupFilter : Option ClauseBuilder := none
  withAskFilter : Option ClauseBuilder := none
  withNearImageFilter : Option ClauseBuilder := none
  withSort : Option SortBuilder := none
  withBM25 : Option ClauseBuilder := none
  withHybrid : Option ClauseBuilder := none
  withGenerativeSearch : Option GenerativeSearchBuilder := none
  withGroupBy : Option ClauseBuilder := none

namespace GetBuilder

/-- Go `func (gb *GetBuilder) WithAfter(id string)`. -/
def WithAfter (gb : GetBuilder) (id : String) : GetBuilder :=
  { gb with includesAfter := true, after := id }

/-- Go `func (gb *GetBuilder) WithClassName(name string)`. -/
def WithClassName (gb : GetBuilder) (name : String) : GetBuilder :=
  { gb with className := name }

/-- Go `func (gb *GetBuilder) WithFields(fields ...Field)`. -/
def WithFields (gb : GetBuilder) (fields : Slice Field) : GetBuilder :=
  { gb with withFields := fields }

/-- Go `func (gb *GetBuilder) WithWhere(where *filters.WhereBuilder)`. -/
def WithWhere (gb : GetBuilder) (where_ : Option ClauseBuilder) : GetBuilder :=
  { gb with includesFilterClause := true, withWhereFilter := where_ }

/-- Go `func (gb *GetBuilder) WithLimit(limit int)`. -/
def WithLimit (gb : GetBuilder) (limit : Int) : GetBuilder :=
  { gb with includesFilterClause := true, includesLimit := true, limit := limit }

/-- Go `func (gb *GetBuilder) WithOffset(offset int)`. -/
def WithOffset (gb : GetBuilder) (offset : Int) : GetBuilder :=
  { gb with includesFilterClause := true, includesOffset := true, offset := offset }

/-- Go `func (gb *GetBuilder) WithBM25(bm25 *BM25ArgumentBuilder)`. -/
def WithBM25 (gb : GetBuilder) (bm25 : Option ClauseBuilder) : GetBuilder :=
  { gb with includesFilterClause := true, withBM25 := bm25 }

/-- Go `func (gb *GetBuilder) WithHybrid(hybrid *HybridArgumentBuilder)`. -/
def WithHybrid (gb : GetBuilder) (hybrid : Option ClauseBuilder) : GetBuilder :=
  { gb with includesFilterClause := true, withHybrid := hybrid }

/-- Go `func (gb *GetBuilder) WithNearText(nearText *NearTextArgumentBuilder)`. -/
def WithNearText (gb : GetBuilder) (nearText : Option ClauseBuilder) : GetBuilder :=
  { gb with includesFilterClause := true, withNearTextFilter := nearText }

/-- Go `func (gb *GetBuilder) WithNearImage(nearImage *NearImageArgumentBuilder)`. -/
def WithNearImage (gb : GetBuilder) (nearImage : Option ClauseBuilder) : GetBuilder :=
  { gb with includesFilterClause := true, withNearImageFilter := nearImage }

/-- Go `func (gb *GetBuilder) WithNearVector(nearVector *NearVectorArgumentBuilder)`. -/
def WithNearVector (gb : GetBuilder) (nearVector : Option ClauseBuilder) : GetBuilder :=
  { gb with includesFilterClause := true, withNearVectorFilter := nearVector }

/-- Go `func (gb *GetBuilder) WithGroup(group *GroupArgumentBuilder)`. -/
def WithGroup (gb : GetBuilder) (group : Option ClauseBuilder) : GetBuilder :=
  { gb with includesFilterClause := true, withGroupFilter := group }

/-- Go `func (gb *GetBuilder) WithAsk(ask *AskArgumentBuilder)`. -/
def WithAsk (gb : GetBuilder) (ask : Option ClauseBuilder) : GetBuilder :=
  { gb with includesFilterClause := true, withAskFilter := ask }

/-- Go `func (gb *GetBuilder) WithNearObject(nearObject *NearObjectArgumentBuilder)`. -/
def WithNearObject (gb : GetBuilder) (nearObject : Option ClauseBuilder) : GetBuilder :=
  { gb with includesFilterClause := true, withNearObjectFilter := nearObject }

/-- Go `func (gb *GetBuilder) WithSort(sort ...Sort)`: the builder always holds a
non-nil `&SortBuilder{sort}` afterwards. -/
def WithSort (gb : GetBuilder) (sort : SortBuilder) : GetBuilder :=
  { gb with includesFilterClause := true, withSort := some sort }

/-- Go `func (gb *GetBuilder) WithGenerativeSearch(s *GenerativeSearchBuilder)`. -/
def WithGenerativeSearch (gb : GetBuilder) (s : Option GenerativeSearchBuilder) : GetBuilder :=
  { gb with withGenerativeSearch := s }

/-- Go `func (gb *GetBuilder) WithGroupBy(groupBy *GroupByArgumentBuilder)`. -/
def WithGroupBy (gb : GetBuilder) (groupBy : Option ClauseBuilder) : GetBuilder :=
  { gb with includesFilterClause := true, withGroupBy := groupBy }

/-- Go `func (gb *GetBuilder) WithConsistencyLevel(lvl string)`. -/
def WithConsistencyLevel (gb : GetBuilder) (lvl : String) : GetBuilder :=
  { gb with includesFilterClause := true, consistencyLevel := lvl }

/-- One step `if b != nil { filters = append(filters, b.build()) }` of
`createFilterClause`. -/
def appendBuilt (filters : List String) (b : Option ClauseBuilder) : List String :=
  match b with
  | some x => filters ++ [x.build]
  | none => filters

/-- Go `func (gb *GetBuilder) createFilterClause() string`. -/
def createFilterClause (d : Deps) (gb : GetBuilder) : String :=
  let filters : List String := []
  let filters := appendBuilt filters gb.withWhereFilter
  let filters := appendBuilt filters gb.withNearTextFilter
  let filters := appendBuilt filters gb.withBM25
  let filters := appendBuilt filters gb.withHybrid
  let filters := appendBuilt filters gb.withNearVectorFilter
  let filters := appendBuilt filters gb.withNearObjectFilter
  let filters := appendBuilt filters gb.withAskFilter
  let filters := appendBuilt filters gb.withNearImageFilter
  let filters := appendBuilt filters gb.withGroupFilter
  let filters :=
    if gb.consistencyLevel ≠ "" then filters ++ ["consistencyLevel: " ++ gb.consistencyLevel]
    else filters
  let filters := if gb.includesLimit then filters ++ ["limit: " ++ fmtInt gb.limit] else filters
  let filters := if gb.includesOffset then filters ++ ["offset: " ++ fmtInt gb.offset] else filters
  let filters := if gb.includesAfter then filters ++ ["after: " ++ d.quote gb.after] else filters
  let filters :=
    match gb.withSort with
    | some s => filters ++ [s.build]
    | none => filters
  let filters := appendBuilt filters gb.withGroupBy
  "(" ++ stringsJoin filters ", " ++ ")"

/-- The loop of `createFieldsClause` looking for the first field named `_additional`;
`none` stands for `posAdditional == -1`. -/
def posAdditional : List Field → Option Nat
  | [] => none
  | f :: fs => if f.Name = "_additional" then some 0 else (posAdditional fs).map (· + 1)

/-- Go `func (gb *GetBuilder) createFieldsClause() string`, with the builder as the
call leaves it: the two `append`s of the merge branch write into the array of
`gb.withFields`. -/
def createFieldsClause (d : Deps) (gb : GetBuilder) : String × GetBuilder :=
  if gb.withFields.len = 0 ∧ gb.withGenerativeSearch.isNone then ("", gb)
  else
    match gb.withGenerativeSearch with
    | none => (joinFields d gb.withFields.vis, gb)
    | some s =>
      let generate := s.build
      let generateAdditional := Field.mk "_additional" [generate]
      if gb.withFields.len = 0 then (d.fieldBuild generateAdditional, gb)
      else
        match posAdditional gb.withFields.vis with
        | none =>
          let r := gb.withFields.append [generateAdditional]
          let own := if r.2 then Slice.viewOf gb.withFields.len r.1 else gb.withFields
          (joinFields d r.1.vis, { gb with withFields := own })
        | some pos =>
          let mergedAdditional :=
            Field.mk "_additional" ((gb.withFields.vis.getD pos (Field.mk "" [])).Fields ++ [generate])
          let fields := (gb.withFields.upTo pos).append (gb.withFields.elemsFrom (pos + 1))
          let own := if fields.2 then Slice.viewOf gb.withFields.len fields.1 else gb.withFields
          let out := fields.1.append [mergedAdditional]
          let own := if fields.2 && out.2 then Slice.viewOf gb.withFields.len out.1 else own
          (joinFields d out.1.vis, { gb with withFields := own })

/-- Go `func (gb *GetBuilder) build() string`, with the builder as the call leaves it. -/
def build (d : Deps) (gb : GetBuilder) : String × GetBuilder :=
  let filterClause := if gb.includesFilterClause then gb.createFilterClause d else ""
  let fieldsClause := gb.createFieldsClause d
  ("\x7bGet \x7b" ++ gb.className ++ " " ++ filterClause ++ " \x7b" ++ fieldsClause.1 ++ "\x7d\x7d\x7d",
    fieldsClause.2)

end GetBuilder

/-- A call of one of the setters of `GetBuilder`, with its argument. -/
inductive GetSetter where
  | withAfter (id : String)
  | withClassName (name : String)
  | withFields (fields : Slice Field)
  | withWhere (where_ : Option ClauseBuilder)
  | withLimit (limit : Int)
  | withOffset (offset : Int)
  | withBM25 (bm25 : Option ClauseBuilder)
  | withHybrid (hybrid : Option ClauseBuilder)
  | withNearText (nearText : Option ClauseBuilder)
  | withNearImage (nearImage : Option ClauseBuilder)
  | withNearVector (nearVector : Option ClauseBuilder)
  | withGroup (group : Option ClauseBuilder)
  | withAsk (ask : Option ClauseBuilder)
  | withNearObject (nearObject : Option ClauseBuilder)
  | withSort (sort : SortBuilder)
  | withGenerativeSearch (s : Option GenerativeSearchBuilder)
  | withGroupBy (groupBy : Option ClauseBuilder)
  | withConsistencyLevel (lvl : String)

namespace GetSetter

/-- The builder after the setter call `c` on `gb`. -/
def run (gb : GetBuilder) (c : GetSetter) : GetBuilder :=
  match c with
  | withAfter id => gb.WithAfter id
  | withClassName name => gb.WithClassName name
  | withFields fields => gb.WithFields fields
  | withWhere w => gb.WithWhere w
  | withLimit limit => gb.WithLimit limit
  | withOffset offset => gb.WithOffset offset
  | withBM25 bm25 => gb.WithBM25 bm25
  | withHybrid hybrid => gb.WithHybrid hybrid
  | withNearText nearText => gb.WithNearText nearText
  | withNearImage nearImage => gb.WithNearImage nearImage
  | withNearVector nearVector => gb.WithNearVector nearVector
  | withGroup group => gb.WithGroup group
  | withAsk ask => gb.WithAsk ask
  | withNearObject nearObject => gb.WithNearObject nearObject
  | withSort sort => gb.WithSort sort
  | withGenerativeSearch s => gb.WithGenerativeSearch s
  | withGroupBy groupBy => gb.WithGroupBy groupBy
  | withConsistencyLevel lvl => gb.WithConsistencyLevel lvl

/-- The clause a setter call targets, numbered in the order of the setters in `get.go`. -/
def target : GetSetter → Nat
  | withAfter _ => 0
  | withClassName _ => 1
  | withFields _ => 2
  | withWhere _ => 3
  | withLimit _ => 4
  | withOffset _ => 5
  | withBM25 _ => 6
  | withHybrid _ => 7
  | withNearText _ => 8
  | withNearImage _ => 9
  | withNearVector _ => 10
  | withGroup _ => 11
  | withAsk _ => 12
  | withNearObject _ => 13
  | withSort _ => 14
  | withGenerativeSearch _ => 15
  | withGroupBy _ => 16
  | withConsistencyLevel _ => 17

/-- The builder after a sequence of setter calls, first call first. -/
def runAll (gb : GetBuilder) (calls : List GetSetter) : GetBuilder :=
  calls.foldl run gb

end GetSetter

/-- The fragments of the filter clause of a `GetBuilder` as a table: one entry per
clause in the order where, nearText, bm25, hybrid, nearVector, nearObject, ask,
nearImage, group, consistencyLevel, limit, offset, after, sort, groupBy; an absent
clause has the entry `none`. -/
def GetBuilder.clauseTable (d : Deps) (gb : GetBuilder) : List (Option String) :=
  [ gb.withWhereFilter.map (fun b => b.build),
    gb.withNearTextFilter.map (fun b => b.build),
    gb.withBM25.map (fun b => b.build),
    gb.withHybrid.map (fun b => b.build),
    gb.withNearVectorFilter.map (fun b => b.build),
    gb.withNearObjectFilter.map (fun b => b.build),
    gb.withAskFilter.map (fun b => b.build),
    gb.withNearImageFilter.map (fun b => b.build),
    gb.withGroupFilter.map (fun b => b.build),
    if gb.consistencyLevel ≠ "" then some ("consistencyLevel: " ++ gb.consistencyLevel) else none,
    if gb.includesLimit then some ("limit: " ++ fmtInt gb.limit) else none,
    if gb.includesOffset then some ("offset: " ++ fmtInt gb.offset) else none,
    if gb.includesAfter then some ("after: " ++ d.quote gb.after) else none,
    gb.withSort.map (fun b => b.build),
    gb.withGroupBy.map (fun b => b.build) ]

/-! ## `aggregate.go` -/

/-- Go `type AggregateBuilder struct`. -/
structure AggregateBuilder where
  fields : List Field := []
  className : String := ""
  includesFilterClause : Bool := false
  groupByClausePropertyName : String := ""
  withWhereFilter : Option ClauseBuilder := none
  withNearTextFilter : Option ClauseBuilder := none
  withNearVectorFilter : Option ClauseBuilder := none
  withNearObjectFilter : Option ClauseBuilder := none
  includesObjectLimit : Bool := false
  objectLimit : Int := 0

namespace AggregateBuilder

/-- Go `func (ab *AggregateBuilder) WithFields(fields []Field)`. -/
def WithFields (ab : AggregateBuilder) (fields : List Field) : AggregateBuilder :=
  { ab with fields := fields }

/-- Go `func (ab *AggregateBuilder) WithClassName(name string)`. -/
def WithClassName (ab : AggregateBuilder) (name : String) : AggregateBuilder :=
  { ab with className := name }

/-- Go `func (ab *AggregateBuilder) WithWhere(where *WhereArgumentBuilder)`. -/
def WithWhere (ab : AggregateBuilder) (where_ : Option ClauseBuilder) : AggregateBuilder :=
  { ab with includesFilterClause := true, withWhereFilter := where_ }

/-- Go `func (ab *AggregateBuilder) WithGroupBy(propertyName string)`. -/
def WithGroupBy (ab : AggregateBuilder) (propertyName : String) : AggregateBuilder :=
  { ab with includesFilterClause := true, groupByClausePropertyName := propertyName }

/-- Go `func (ab *AggregateBuilder) WithNearText(nearText *NearTextArgumentBuilder)`. -/
def WithNearText (ab : AggregateBuilder) (nearText : Option ClauseBuilder) : AggregateBuilder :=
  { ab with includesFilterClause := true, withNearTextFilter := nearText }

/-- Go `func (ab *AggregateBuilder) WithNearObject(nearObject *NearObjectArgumentBuilder)`. -/
def WithNearObject (ab : AggregateBuilder) (nearObject : Option ClauseBuilder) : AggregateBuilder :=
  { ab with includesFilterClause := true, withNearObjectFilter := nearObject }

/-- Go `func (ab *AggregateBuilder) WithNearVector(nearVector *NearVectorArgumentBuilder)`. -/
def WithNearVector (ab : AggregateBuilder) (nearVector : Option ClauseBuilder) : AggregateBuilder :=
  { ab with includesFilterClause := true, withNearVectorFilter := nearVector }

/-- Go `func (ab *AggregateBuilder) WithObjectLimit(objectLimit int)`. -/
def WithObjectLimit (ab : AggregateBuilder) (objectLimit : Int) : AggregateBuilder :=
  { ab with objectLimit := objectLimit, includesObjectLimit := true }

/-- Go `func (ab *AggregateBuilder) createFilterClause() string`. -/
def createFilterClause (ab : AggregateBuilder) : String :=
  let filters : List String := []
  let filters :=
    if 0 < ab.groupByClausePropertyName.length then
      filters ++ ["groupBy: \"" ++ ab.groupByClausePropertyName ++ "\""]
    else filters
  let filters := GetBuilder.appendBuilt filters ab.withWhereFilter
  let filters := GetBuilder.appendBuilt filters ab.withNearTextFilter
  let filters := GetBuilder.appendBuilt filters ab.withNearVectorFilter
  let filters := GetBuilder.appendBuilt filters ab.withNearObjectFilter
  let filters :=
    if ab.includesObjectLimit then filters ++ ["objectLimit: " ++ fmtInt ab.objectLimit]
    else filters
  "(" ++ stringsJoin filters ", " ++ ")"

/-- Go `func (ab *AggregateBuilder) createFieldsClause() string`. -/
def createFieldsClause (d : Deps) (ab : AggregateBuilder) : String :=
  if 0 < ab.fields.length then stringsJoin (ab.fields.map d.fieldBuild) " " else ""

/-- Go `func (ab *AggregateBuilder) build() string`. -/
def build (d : Deps) (ab : AggregateBuilder) : String :=
  let filterClause := if ab.includesFilterClause then ab.createFilterClause else ""
  let fields := ab.createFieldsClause d
  "\x7bAggregate\x7b" ++ ab.className ++ filterClause ++ "\x7b" ++ fields ++ "\x7d\x7d\x7d"

/-- The fragments of the filter clause of an `AggregateBuilder` as a table: one entry
per clause in the order groupBy, where, nearText, nearVector, nearObject,
objectLimit; an absent clause has the entry `none`. -/
def clauseTable (ab : AggregateBuilder) : List (Option String) :=
  [ if 0 < ab.groupByClausePropertyName.length then
      some ("groupBy: \"" ++ ab.groupByClausePropertyName ++ "\"") else none,
    ab.withWhereFilter.map (fun b => b.build),
    ab.withNearTextFilter.map (fun b => b.build),
    ab.withNearVectorFilter.map (fun b => b.build),
    ab.withNearObjectFilter.map (fun b => b.build),
    if ab.includesObjectLimit then some ("objectLimit: " ++ fmtInt ab.objectLimit) else none ]

end AggregateBuilder

/-! ## Example builders -/

/-- The requested field `name`. -/
def exampleName : Field := Field.mk "name" []

/-- The field `_additional` with the single child `id`. -/
def exampleAdditional : Field := Field.mk "_additional" [Field.mk "id" []]

/-- The fragment a generative search builds. -/
def exampleGenerate : Field := Field.mk "generate" [Field.mk "singleResult" []]

/-- The builder after `WithClassName("Band").WithFields(name, _additional).WithGenerativeSearch(g)`. -/
def exampleMergeLast : GetBuilder :=
  ((({} : GetBuilder).WithClassName "Band").WithFields
    (Slice.ofList [exampleName, exampleAdditional])).WithGenerativeSearch (some ⟨exampleGenerate⟩)

/-- The builder after `WithClassName("Band").WithFields(_additional, name).WithGenerativeSearch(g)`. -/
def exampleMergeFirst : GetBuilder :=
  ((({} : GetBuilder).WithClassName "Band").WithFields
    (Slice.ofList [exampleAdditional, exampleName])).WithGenerativeSearch (some ⟨exampleGenerate⟩)

/-- The builder after `WithClassName("Band").WithFields(name).WithGenerativeSearch(g)`. -/
def exampleSynthesize : GetBuilder :=
  ((({} : GetBuilder).WithClassName "Band").WithFields
    (Slice.ofList [exampleName])).WithGenerativeSearch (some ⟨exampleGenerate⟩)

/-- The builder after
`WithClassName("Band").WithFields(_additional{a}, x, _additional{b}).WithGenerativeSearch(g)`:
two requested fields are named `_additional`. -/
def exampleDuplicate : GetBuilder :=
  ((({} : GetBuilder).WithClassName "Band").WithFields
    (Slice.ofList [Field.mk "_additional" [Field.mk "a" []], Field.mk "x" [],
      Field.mk "_additional" [Field.mk "b" []]])).WithGenerativeSearch (some ⟨exampleGenerate⟩)

/-- The builder after `WithClassName("Band").WithConsistencyLevel("")`. -/
def exampleEmptyLevel : GetBuilder :=
  (({} : GetBuilder).WithClassName "Band").WithConsistencyLevel ""

/-- The builder after `WithClassName("Band").WithWhere(nil)`. -/
def exampleNilWhere : GetBuilder :=
  (({} : GetBuilder).WithClassName "Band").WithWhere none

/-- The builder after `WithClassName("Band").WithGroupBy("genre")`. -/
def exampleGroupBy : AggregateBuilder :=
  (({} : AggregateBuilder).WithClassName "Band").WithGroupBy "genre"

/-- The builder after `WithClassName("Band").WithObjectLimit(5)`. -/
def exampleObjectLimit : AggregateBuilder :=
  (({} : AggregateBuilder).WithClassName "Band").WithObjectLimit 5

/-- The builder after `WithClassName("Band").WithGroupBy(p)` for the property name
`p` made of the three characters `a`, `"`, `b`. -/
def exampleQuoteInName : AggregateBuilder :=
  (({} : AggregateBuilder).WithClassName "Band").WithGroupBy "a\"b"

/-- Three setter calls on pairwise different clauses. -/
def exampleCalls : List GetSetter :=
  [GetSetter.withLimit 5, GetSetter.withWhere (some ⟨"where-fragment"⟩),
    GetSetter.withAfter "id-1"]

/-- A call of one of the setters of `AggregateBuilder`, with its argument. -/
inductive AggregateSetter where
  | withFields (fields : List Field)
  | withClassName (name : String)
  | withWhere (where_ : Option ClauseBuilder)
  | withGroupBy (propertyName : String)
  | withNearText (nearText : Option ClauseBuilder)
  | withNearObject (nearObject : Option ClauseBuilder)
  | withNearVector (nearVector : Option ClauseBuilder)
  | withObjectLimit (objectLimit : Int)

namespace AggregateSetter

/-- The builder after the setter call `c` on `ab`. -/
def run (ab : AggregateBuilder) (c : AggregateSetter) : AggregateBuilder :=
  match c with
  | withFields fields => ab.WithFields fields
  | withClassName name => ab.WithClassName name
  | withWhere w => ab.WithWhere w
  | withGroupBy propertyName => ab.WithGroupBy propertyName
  | withNearText nearText => ab.WithNearText nearText
  | withNearObject nearObject => ab.WithNearObject nearObject
  | withNearVector nearVector => ab.WithNearVector nearVector
  | withObjectLimit objectLimit => ab.WithObjectLimit objectLimit

/-- The setter a call belongs to, numbered in the order of the setters in
`aggregate.go`. -/
def target : AggregateSetter → Nat
  | withFields _ => 0
  | withClassName _ => 1
  | withWhere _ => 2
  | withGroupBy _ => 3
  | withNearText _ => 4
  | withNearObject _ => 5
  | withNearVector _ => 6
  | withObjectLimit _ => 7

end AggregateSetter

/-- Whether a setter call of `GetBuilder` is a call of `WithAfter`. -/
def GetSetter.isWithAfter : GetSetter → Bool
  | .withAfter _ => true
  | _ => false

/-- Whether the setter of a call assigns `gb.includesFilterClause = true`: every
setter of `get.go` but `WithAfter`, `WithClassName`, `WithFields` and
`WithGenerativeSearch`. -/
def GetSetter.setsFilterClause : GetSetter → Bool
  | .withAfter _ => false
  | .withClassName _ => false
  | .withFields _ => false
  | .withGenerativeSearch _ => false
  | _ => true

/-- The calls `WithClassName("Band")`, `WithAfter("id-1")`, `WithFields(name)`. -/
def exampleAfterCalls : List GetSetter :=
  [GetSetter.withClassName "Band", GetSetter.withAfter "id-1",
    GetSetter.withFields (Slice.ofList [exampleName])]

/-- A field without name and without children. -/
def exampleEmptyField : Field := Field.mk "" []

/-- The builder `gb` with the two fields that `WithAfter` assigns put back to their
zero values. -/
def GetBuilder.withoutAfter (gb : GetBuilder) : GetBuilder :=
  { gb with includesAfter := false, after := "" }

end Graphql

/-! ## `misc.go` -/

namespace Misc

/-- Go `connection.ResponseData`, with the two fields `misc.go` reads: the body (as the
string `string(response.Body)` of its bytes) and the status code. -/
structure ResponseData where
  Body : String
  StatusCode : Int
  deriving DecidableEq

/-- Modelled from the spec: `connection.Connection` and its method `RunREST` are
declared outside the files studied here.  Section 6: the transport "returns either a
structured response payload or an error".  A connection is represented by what its
`RunREST` returns for a path and an HTTP method (the context and the `nil` request
body are left out); `E` is the type of the non-nil values of Go `error`. -/
structure Connection (E : Type) where
  RunREST : String → String → Except E ResponseData

/-- Functions `openIDConfigGetter.Do` calls that are declared outside `misc.go`; `C`
stands for `models.OpenIDConfiguration`. -/
structure Codec (E C : Type) where
  /-- The method `response.DecodeBodyIntoTarget(&openIDConfig)`: the decoded
  configuration, or the decode error. -/
  DecodeBodyIntoTarget : ResponseData → Except E C
  /-- The function `clienterrors.NewUnexpectedStatusCodeError(statusCode, msg)`. -/
  NewUnexpectedStatusCodeError : Int → String → E

/-- Go `http.MethodGet`. -/
def httpMethodGet : String := "GET"

/-- Go `func (rc *readyChecker) Do(ctx context.Context) (bool, error)`. -/
def readyChecker.Do {E : Type} (connection : Connection E) : Bool × Option E :=
  match connection.RunREST "/.well-known/ready" httpMethodGet with
  | .error err => (false, some err)
  | .ok response => if response.StatusCode = 200 then (true, none) else (false, none)

/-- Go `func (lc *liveChecker) Do(ctx context.Context) (bool, error)`. -/
def liveChecker.Do {E : Type} (connection : Connection E) : Bool × Option E :=
  match connection.RunREST "/.well-known/live" httpMethodGet with
  | .error err => (false, some err)
  | .ok response => if response.StatusCode = 200 then (true, none) else (false, none)

/-- Go `func (oidcg *openIDConfigGetter) Do(ctx context.Context)
(*models.OpenIDConfiguration, error)`. -/
def openIDConfigGetter.Do {E C : Type} (k : Codec E C) (connection : Connection E) :
    Option C × Option E :=
  match connection.RunREST "/.well-known/openid-configuration" httpMethodGet with
  | .error err => (none, some err)
  | .ok response =>
    if response.StatusCode = 404 then (none, none)
    else if response.StatusCode = 200 then
      match k.DecodeBodyIntoTarget response with
      | .error decodeErr => (none, some decodeErr)
      | .ok openIDConfig => (some openIDConfig, none)
    else (none, some (k.NewUnexpectedStatusCodeError response.StatusCode response.Body))

/-- A connection whose every request is answered with the status code `code` and the
body `body`. -/
def exampleConnection (code : Int) (body : String) : Connection String :=
  { RunREST := fun _ _ => .ok { Body := body, StatusCode := code } }

/-- A connection whose every request fails with the error `err`. -/
def exampleFailing (err : String) : Connection String :=
  { RunREST := fun _ _ => .error err }

/-- A codec for configurations that are plain strings: the body `bad` does not decode,
every other body decodes to itself. -/
def exampleCodec : Codec String String :=
  { DecodeBodyIntoTarget := fun r =>
      if r.Body = "bad" then .error "decode error" else .ok r.Body,
    NewUnexpectedStatusCodeError := fun code msg =>
      "status code: " ++ toString code ++ ", error: " ++ msg }

end Misc

namespace Graphql

/-! ## Theorems -/

theorem appendBuilt_eq (filters : List String) (b : Option ClauseBuilder) :
    GetBuilder.appendBuilt filters b = filters ++ (b.map (fun x => x.build)).toList := by
  cases b <;> simp [GetBuilder.appendBuilt]

theorem ite_append_eq (c : Prop) [Decidable c] (filters : List String) (x : String) :
    (if c then filters ++ [x] else filters) =
      filters ++ (if c then some x else none).toList := by
  by_cases h : c <;> simp [h]

theorem sort_append_eq (filters : List String) (b : Option SortBuilder) :
    (match b with
      | some s => filters ++ [s.build]
      | none => filters) = filters ++ (b.map (fun x => x.build)).toList := by
  cases b <;> simp

theorem filterMap_id_cons (o : Option String) (rest : List (Option String)) :
    (o :: rest).filterMap id = o.toList ++ rest.filterMap id := by
  cases o <;> simp

/-- C1. The filter clause of a `GetBuilder` is an opening parenthesis, the fragments
of exactly the present clauses joined by `", "` in the fixed order where, nearText,
bm25, hybrid, nearVector, nearObject, ask, nearImage, group, consistencyLevel, limit,
offset, after, sort, groupBy, and a closing parenthesis; an absent clause contributes
nothing. -/
theorem GetBuilder.createFilterClause_eq (d : Deps) (gb : GetBuilder) :
    gb.createFilterClause d =
      "(" ++ stringsJoin ((gb.clauseTable d).filterMap id) ", " ++ ")" := by
  unfold GetBuilder.createFilterClause GetBuilder.clauseTable
  simp only [appendBuilt_eq, ite_append_eq, sort_append_eq]
  simp only [filterMap_id_cons, List.filterMap_nil, List.append_nil, List.nil_append,
    List.append_assoc]

/-! ### The fields clause of `GetBuilder` -/

theorem posAdditional_none_iff (fs : List Field) :
    GetBuilder.posAdditional fs = none ↔ ∀ f ∈ fs, f.Name ≠ "_additional" := by
  induction fs with
  | nil => simp [GetBuilder.posAdditional]
  | cons f fs ih =>
    by_cases h : f.Name = "_additional"
    · simp [GetBuilder.posAdditional, h]
    · simp [GetBuilder.posAdditional, h, ih]

theorem posAdditional_append (pre post : List Field) (f : Field)
    (hpre : ∀ x ∈ pre, x.Name ≠ "_additional") (hf : f.Name = "_additional") :
    GetBuilder.posAdditional (pre ++ f :: post) = some pre.length := by
  induction pre with
  | nil => simp [GetBuilder.posAdditional, hf]
  | cons x pre ih =>
    have hx : x.Name ≠ "_additional" := hpre x (by simp)
    have ih2 := ih (fun y hy => hpre y (by simp [hy]))
    simp [GetBuilder.posAdditional, hx, ih2]

theorem posAdditional_some (fs : List Field) (i : Nat)
    (h : GetBuilder.posAdditional fs = some i) :
    ∃ pre f post, fs = pre ++ f :: post ∧ pre.length = i ∧ f.Name = "_additional" ∧
      ∀ x ∈ pre, x.Name ≠ "_additional" := by
  induction fs generalizing i with
  | nil => simp [GetBuilder.posAdditional] at h
  | cons x fs ih =>
    by_cases hx : x.Name = "_additional"
    · simp [GetBuilder.posAdditional, hx] at h
      exact ⟨[], x, fs, by simp, by simpa using h, hx, by simp⟩
    · simp [GetBuilder.posAdditional, hx] at h
      obtain ⟨j, hj, rfl⟩ := h
      obtain ⟨pre, f, post, rfl, hlen, hf, hpre⟩ := ih j hj
      refine ⟨x :: pre, f, post, by simp, by simp [hlen], hf, ?_⟩
      intro y hy
      rcases List.mem_cons.mp hy with rfl | hy
      · exact hx
      · exact hpre y hy

theorem Slice.append_fits {α : Type} (s : Slice α) (xs : List α)
    (h : xs.length ≤ s.spare.length) :
    s.append xs = ({ vis := s.vis ++ xs, spare := s.spare.drop xs.length }, true) := by
  simp [Slice.append, h]

theorem Slice.upTo_append {α : Type} (pre rest spare : List α) :
    Slice.upTo { vis := pre ++ rest, spare := spare } pre.length =
      { vis := pre, spare := rest ++ spare } := by
  simp [Slice.upTo]

theorem Slice.viewOf_full {α : Type} (n : Nat) (xs spare : List α) (h : xs.length = n) :
    Slice.viewOf n { vis := xs, spare := spare } = { vis := xs, spare := spare } := by
  subst h
  simp [Slice.viewOf]

theorem getD_length_append {α : Type} (pre post : List α) (f dflt : α) :
    (pre ++ f :: post).getD pre.length dflt = f := by
  induction pre with
  | nil => rfl
  | cons x pre ih => simpa using ih

/-- The merge branch of `createFieldsClause`: string and builder after the call. -/
theorem createFieldsClause_merge (d : Deps) (gb : GetBuilder) (s : GenerativeSearchBuilder)
    (pre post spare : List Field) (f : Field)
    (hgen : gb.withGenerativeSearch = some s)
    (hfs : gb.withFields = { vis := pre ++ f :: post, spare := spare })
    (hpre : ∀ x ∈ pre, x.Name ≠ "_additional") (hf : f.Name = "_additional") :
    gb.createFieldsClause d =
      (joinFields d (pre ++ post ++ [Field.mk "_additional" (f.Fields ++ [s.build])]),
        { gb with withFields :=
            { vis := pre ++ post ++ [Field.mk "_additional" (f.Fields ++ [s.build])],
              spare := spare } }) := by
  have hpos := posAdditional_append pre post f hpre hf
  have hlen : ¬ ((pre ++ f :: post).length = 0) := by simp
  have hget : (pre ++ f :: post).getD pre.length (Field.mk "" []) = f :=
    getD_length_append pre post f _
  have h1 : (Slice.upTo { vis := pre ++ f :: post, spare := spare } pre.length).append
      (Slice.elemsFrom { vis := pre ++ f :: post, spare := spare } (pre.length + 1)) =
      ({ vis := pre ++ post, spare := (f :: post ++ spare).drop post.length }, true) := by
    have e : Slice.elemsFrom { vis := pre ++ f :: post, spare := spare } (pre.length + 1)
        = post := by
      simp [Slice.elemsFrom]
    rw [Slice.upTo_append, e, Slice.append_fits]
    simp
    omega
  have h2 : Slice.append { vis := pre ++ post, spare := (f :: post ++ spare).drop post.length }
      [Field.mk "_additional" (f.Fields ++ [s.build])] =
      ({ vis := pre ++ post ++ [Field.mk "_additional" (f.Fields ++ [s.build])],
         spare := spare }, true) := by
    rw [Slice.append_fits]
    · simp [List.drop_drop]
    · simp
      omega
  unfold GetBuilder.createFieldsClause
  simp only [hgen, hfs, Slice.len, hpos, hlen, hget, h1, h2, false_and, if_false, if_true,
    Bool.and_self]
  rw [Slice.viewOf_full]
  simp

theorem eraseIdx_length_append {α : Type} (pre post : List α) (f : α) :
    (pre ++ f :: post).eraseIdx pre.length = pre ++ post := by
  induction pre with
  | nil => rfl
  | cons x pre ih => simp [ih]

theorem set_length_append {α : Type} (pre : List α) (f m : α) :
    (pre ++ [f]).set pre.length m = pre ++ [m] := by
  induction pre with
  | nil => rfl
  | cons x pre ih => simp

theorem slice_eta {α : Type} (s : Slice α) : s = { vis := s.vis, spare := s.spare } := by
  cases s
  rfl

/-- C2 (amended). When the first requested field named `_additional` is at index `i`
and a generative fragment is set, `createFieldsClause` serializes the requested
fields without the element at index `i`, in their original order, followed by the
merged `_additional` field: the merged field is moved to the end.  When `i` is the
last index this is the replacement in place. -/
theorem GetBuilder.createFieldsClause_merged_last (d : Deps) (gb : GetBuilder)
    (s : GenerativeSearchBuilder) (i : Nat)
    (hgen : gb.withGenerativeSearch = some s)
    (hpos : GetBuilder.posAdditional gb.withFields.vis = some i) :
    (gb.createFieldsClause d).1 =
        joinFields d (gb.withFields.vis.eraseIdx i ++
          [Field.mk "_additional"
            ((gb.withFields.vis.getD i (Field.mk "" [])).Fields ++ [s.build])]) ∧
      (i + 1 = gb.withFields.vis.length →
        (gb.createFieldsClause d).1 =
          joinFields d (gb.withFields.vis.set i
            (Field.mk "_additional"
              ((gb.withFields.vis.getD i (Field.mk "" [])).Fields ++ [s.build])))) := by
  obtain ⟨pre, f, post, hfs, hlen, hf, hpre⟩ := posAdditional_some _ _ hpos
  subst hlen
  have hs : gb.withFields = { vis := pre ++ f :: post, spare := gb.withFields.spare } := by
    rw [← hfs]
  have hmain := createFieldsClause_merge d gb s pre post _ f hgen hs hpre hf
  rw [hmain, hfs, eraseIdx_length_append, getD_length_append]
  refine ⟨rfl, ?_⟩
  intro hlast
  have hpost : post = [] := by
    have : post.length = 0 := by
      rw [List.length_append, List.length_cons] at hlast
      omega
    exact List.length_eq_zero.mp this
  subst hpost
  simp [set_length_append]

/-- C2 (witness of the amended statement): `WithFields(_additional, name)` with a
generative fragment. -/
theorem GetBuilder.createFieldsClause_merged_last_witness :
    exampleMergeFirst.withGenerativeSearch = some ⟨exampleGenerate⟩ ∧
    GetBuilder.posAdditional exampleMergeFirst.withFields.vis = some 0 ∧
    (exampleMergeFirst.createFieldsClause specDeps).1 =
      joinFields specDeps ([exampleAdditional, exampleName].eraseIdx 0 ++
        [Field.mk "_additional" ([Field.mk "id" []] ++ [exampleGenerate])]) :=
  ⟨rfl, rfl,
    (GetBuilder.createFieldsClause_merged_last specDeps exampleMergeFirst ⟨exampleGenerate⟩ 0
      rfl rfl).1⟩

/-- C2 (counterexample). For `WithFields(_additional, name)` and a generative
fragment, the field `_additional` is first among the requested fields but its merged
form is serialized last: the fields clause differs from the serialization of the
list with the merged field in place. -/
theorem GetBuilder.createFieldsClause_not_in_place :
    GetBuilder.posAdditional exampleMergeFirst.withFields.vis = some 0 ∧
    (exampleMergeFirst.createFieldsClause specDeps).1 =
      "name _additional \x7b id generate \x7b singleResult \x7d \x7d" ∧
    joinFields specDeps ([exampleAdditional, exampleName].set 0
        (Field.mk "_additional" [Field.mk "id" [], exampleGenerate])) =
      "_additional \x7b id generate \x7b singleResult \x7d \x7d name" ∧
    (exampleMergeFirst.createFieldsClause specDeps).1 ≠
      joinFields specDeps ([exampleAdditional, exampleName].set 0
        (Field.mk "_additional" [Field.mk "id" [], exampleGenerate])) := by
  refine ⟨rfl, by decide, by decide, by decide⟩

/-- After a `build` that merges the generative fragment, the builder holds the merged
field: `build` on a builder with fields `pre ++ [_additional] ++ post` leaves the
fields `pre ++ post ++ [merged]` in the array of `withFields`. -/
theorem build_merge_state (d : Deps) (gb : GetBuilder) (s : GenerativeSearchBuilder)
    (pre post : List Field) (cs : List Field)
    (hgen : gb.withGenerativeSearch = some s)
    (hfs : gb.withFields.vis = pre ++ Field.mk "_additional" cs :: post)
    (hpre : ∀ x ∈ pre, x.Name ≠ "_additional") :
    (gb.build d).2.withFields.vis =
        pre ++ post ++ [Field.mk "_additional" (cs ++ [s.build])] ∧
      (gb.build d).2.withGenerativeSearch = some s := by
  have hs : gb.withFields =
      { vis := pre ++ Field.mk "_additional" cs :: post, spare := gb.withFields.spare } := by
    rw [← hfs]
  have hmain := createFieldsClause_merge d gb s pre post _ _ hgen hs hpre rfl
  refine ⟨?_, ?_⟩ <;> simp [GetBuilder.build, hmain, Field.Fields, hgen]

/-- The second of two `build` calls in a row, on a builder with a generative fragment
and exactly one requested field named `_additional`: the fragment is merged twice. -/
theorem build_twice_fields (d : Deps) (gb : GetBuilder) (s : GenerativeSearchBuilder)
    (pre post : List Field) (cs : List Field)
    (hgen : gb.withGenerativeSearch = some s)
    (hfs : gb.withFields.vis = pre ++ Field.mk "_additional" cs :: post)
    (hpre : ∀ x ∈ pre, x.Name ≠ "_additional")
    (hpost : ∀ x ∈ post, x.Name ≠ "_additional") :
    ((gb.build d).2.createFieldsClause d).1 =
      joinFields d (pre ++ post ++ [Field.mk "_additional" (cs ++ [s.build] ++ [s.build])]) := by
  obtain ⟨h1, h2⟩ := build_merge_state d gb s pre post cs hgen hfs hpre
  have hs : (gb.build d).2.withFields =
      { vis := (pre ++ post) ++ Field.mk "_additional" (cs ++ [s.build]) :: [],
        spare := (gb.build d).2.withFields.spare } := by
    rw [← h1]
  have hpp : ∀ x ∈ pre ++ post, x.Name ≠ "_additional" := by
    intro x hx
    rcases List.mem_append.mp hx with hx | hx
    · exact hpre x hx
    · exact hpost x hx
  have hmain := createFieldsClause_merge d (gb.build d).2 s (pre ++ post) [] _ _ h2 hs hpp rfl
  rw [hmain]
  simp [Field.Fields]

/-- C3 (the code at the failing input). Two `build` calls in a row on the builder
after `WithClassName("Band").WithFields(name, _additional).WithGenerativeSearch(g)`
return different strings: the first call leaves the merged `_additional` field in the
array of `withFields`, and the second call merges the fragment into it again. -/
theorem GetBuilder.build_twice_differs :
    (exampleMergeLast.build specDeps).1 =
      "\x7bGet \x7bBand  \x7bname _additional \x7b id generate \x7b singleResult \x7d \x7d\x7d\x7d\x7d" ∧
    ((exampleMergeLast.build specDeps).2.build specDeps).1 =
      "\x7bGet \x7bBand  \x7bname _additional \x7b id generate \x7b singleResult \x7d generate \x7b singleResult \x7d \x7d\x7d\x7d\x7d" ∧
    ((exampleMergeLast.build specDeps).2.build specDeps).1 ≠
      (exampleMergeLast.build specDeps).1 := by
  refine ⟨by decide, by decide, by decide⟩

/-- C4 (amended). With a generative fragment `g` set and requested fields
`pre ++ [_additional with children cs] ++ post`, where no field of `pre` is named
`_additional`, so that the field with the children `cs` is the first one of that name,
`createFieldsClause` serializes the fields `pre ++ post`, unchanged and in their
original order, and the field `_additional` with the children `cs` followed by `g`. -/
theorem GetBuilder.createFieldsClause_merge_children (d : Deps) (gb : GetBuilder)
    (s : GenerativeSearchBuilder) (pre post cs : List Field)
    (hgen : gb.withGenerativeSearch = some s)
    (hfs : gb.withFields.vis = pre ++ Field.mk "_additional" cs :: post)
    (hpre : ∀ x ∈ pre, x.Name ≠ "_additional") :
    (gb.createFieldsClause d).1 =
      joinFields d (pre ++ post ++ [Field.mk "_additional" (cs ++ [s.build])]) := by
  have hs : gb.withFields =
      { vis := pre ++ Field.mk "_additional" cs :: post, spare := gb.withFields.spare } := by
    rw [← hfs]
  rw [createFieldsClause_merge d gb s pre post _ _ hgen hs hpre rfl]
  rfl

/-- C4 (witness of the amended statement): `WithFields(name, _additional)` with a
generative fragment. -/
theorem GetBuilder.createFieldsClause_merge_children_witness :
    exampleMergeLast.withGenerativeSearch = some ⟨exampleGenerate⟩ ∧
    exampleMergeLast.withFields.vis =
      [exampleName] ++ Field.mk "_additional" [Field.mk "id" []] :: [] ∧
    (∀ x ∈ [exampleName], x.Name ≠ "_additional") ∧
    (exampleMergeLast.createFieldsClause specDeps).1 =
      joinFields specDeps ([exampleName] ++ [] ++
        [Field.mk "_additional" ([Field.mk "id" []] ++ [exampleGenerate])]) :=
  ⟨rfl, rfl, by decide,
    GetBuilder.createFieldsClause_merge_children specDeps exampleMergeLast ⟨exampleGenerate⟩
      [exampleName] [] [Field.mk "id" []] rfl rfl (by decide)⟩

/-- C4 (counterexample). For `WithFields(_additional{a}, x, _additional{b})` and a
generative fragment `g`, the requested fields contain the field `_additional` with the
children `b` (at index 2), but the fragment is merged into the first field of that
name: the field with the children `b` is emitted without `g`, the other field
`_additional{a}` is not emitted unchanged, and the fields clause differs from the
serialization of `_additional{a}`, `x` and `_additional{b g}`. -/
theorem GetBuilder.createFieldsClause_merges_first_only :
    exampleDuplicate.withGenerativeSearch = some ⟨exampleGenerate⟩ ∧
    exampleDuplicate.withFields.vis =
      [Field.mk "_additional" [Field.mk "a" []], Field.mk "x" []] ++
        Field.mk "_additional" [Field.mk "b" []] :: [] ∧
    GetBuilder.posAdditional exampleDuplicate.withFields.vis = some 0 ∧
    (exampleDuplicate.createFieldsClause specDeps).1 =
      "x _additional \x7b b \x7d _additional \x7b a generate \x7b singleResult \x7d \x7d" ∧
    joinFields specDeps
        ([Field.mk "_additional" [Field.mk "a" []], Field.mk "x" []] ++ [] ++
          [Field.mk "_additional" ([Field.mk "b" []] ++ [exampleGenerate])]) =
      "_additional \x7b a \x7d x _additional \x7b b generate \x7b singleResult \x7d \x7d" ∧
    (exampleDuplicate.createFieldsClause specDeps).1 ≠
      joinFields specDeps
        ([Field.mk "_additional" [Field.mk "a" []], Field.mk "x" []] ++ [] ++
          [Field.mk "_additional" ([Field.mk "b" []] ++ [exampleGenerate])]) := by
  refine ⟨rfl, rfl, rfl, by decide, by decide, by decide⟩

/-- C5. With a generative fragment `g` set and a non-empty list of requested fields
none of which is named `_additional`, `createFieldsClause` is `joinFields` of the
requested fields, in their original order, followed by a new field `_additional`
whose only child is `g`. -/
theorem GetBuilder.createFieldsClause_synthesize (d : Deps) (gb : GetBuilder)
    (s : GenerativeSearchBuilder)
    (hgen : gb.withGenerativeSearch = some s)
    (hne : gb.withFields.vis ≠ [])
    (hno : ∀ f ∈ gb.withFields.vis, f.Name ≠ "_additional") :
    (gb.createFieldsClause d).1 =
      joinFields d (gb.withFields.vis ++ [Field.mk "_additional" [s.build]]) := by
  have hpos := (posAdditional_none_iff gb.withFields.vis).mpr hno
  have hlen : ¬ (gb.withFields.vis.length = 0) := by
    intro h
    exact hne (List.length_eq_zero.mp h)
  unfold GetBuilder.createFieldsClause
  simp only [hgen, Slice.len, hpos, hlen, false_and, if_false]
  unfold Slice.append
  split <;> rfl

/-- C5 (witness): `WithFields(name)` with a generative fragment. -/
theorem GetBuilder.createFieldsClause_synthesize_witness :
    exampleSynthesize.withGenerativeSearch = some ⟨exampleGenerate⟩ ∧
    exampleSynthesize.withFields.vis ≠ [] ∧
    (∀ f ∈ exampleSynthesize.withFields.vis, f.Name ≠ "_additional") ∧
    (exampleSynthesize.createFieldsClause specDeps).1 =
      joinFields specDeps (exampleSynthesize.withFields.vis ++
        [Field.mk "_additional" [exampleGenerate]]) :=
  ⟨rfl, by simp [exampleSynthesize, GetBuilder.WithGenerativeSearch, GetBuilder.WithFields,
      Slice.ofList], by decide,
    GetBuilder.createFieldsClause_synthesize specDeps exampleSynthesize ⟨exampleGenerate⟩ rfl
      (by simp [exampleSynthesize, GetBuilder.WithGenerativeSearch, GetBuilder.WithFields,
        Slice.ofList]) (by decide)⟩

/-- C6 (the code at the failing inputs). After `WithClassName("Band")` and
`WithConsistencyLevel("")`, and likewise after `WithClassName("Band")` and
`WithWhere(nil)`, no filter fragment is emitted, yet `build` writes an empty pair of
parentheses. -/
theorem GetBuilder.build_empty_parentheses :
    (exampleEmptyLevel.build specDeps).1 = "\x7bGet \x7bBand () \x7b\x7d\x7d\x7d" ∧
    (exampleNilWhere.build specDeps).1 = "\x7bGet \x7bBand () \x7b\x7d\x7d\x7d" ∧
    (exampleEmptyLevel.clauseTable specDeps).filterMap id = [] ∧
    (exampleNilWhere.clauseTable specDeps).filterMap id = [] := by
  refine ⟨by decide, by decide, by decide, by decide⟩

/-! ### `AggregateBuilder` -/

theorem length_pos_of_ne_empty (p : String) (hp : p ≠ "") : 0 < p.length := by
  cases p with
  | mk data =>
    cases data with
    | nil => exact absurd rfl hp
    | cons c cs => simp [String.length]

/-- C7 (amended). For every class name `c` and every non-empty property name `p`,
the `AggregateBuilder` on which only `WithClassName(c)` and `WithGroupBy(p)` were
called builds the class name, the clause `(groupBy: "p")` and the braces of the
empty fields clause. -/
theorem AggregateBuilder.build_groupBy (d : Deps) (c p : String) (hp : p ≠ "") :
    ((({} : AggregateBuilder).WithClassName c).WithGroupBy p).build d =
      "\x7bAggregate\x7b" ++ c ++ "(groupBy: \"" ++ p ++ "\")\x7b\x7d\x7d\x7d" := by
  have hlen := length_pos_of_ne_empty p hp
  simp only [AggregateBuilder.build, AggregateBuilder.WithGroupBy,
    AggregateBuilder.WithClassName, AggregateBuilder.createFilterClause,
    AggregateBuilder.createFieldsClause, GetBuilder.appendBuilt, hlen, if_true]
  apply String.ext
  simp [stringsJoin]

/-- C7 (witness of the amended statement): class `Band`, property `genre`. -/
theorem AggregateBuilder.build_groupBy_witness :
    ("genre" : String) ≠ "" ∧
    exampleGroupBy.build specDeps = "\x7bAggregate\x7bBand(groupBy: \"genre\")\x7b\x7d\x7d\x7d" :=
  ⟨by decide, AggregateBuilder.build_groupBy specDeps "Band" "genre" (by decide)⟩

/-- C7 (counterexample). `WithClassName("Band").WithGroupBy("genre")` does not build
the string without the braces of the fields clause. -/
theorem AggregateBuilder.build_groupBy_not_braceless :
    exampleGroupBy.build specDeps ≠ "\x7bAggregate\x7bBand(groupBy: \"genre\")\x7d\x7d" := by
  decide

/-- The general form of `AggregateBuilder.build`: the class name, then the filter
clause in parentheses exactly when `includesFilterClause` is set, then the fields
clause in braces, with nothing in between. -/
theorem aggregate_build_form (d : Deps) (ab : AggregateBuilder) :
    ab.build d =
      if ab.includesFilterClause then
        "\x7bAggregate\x7b" ++ ab.className ++
          ("(" ++ stringsJoin (ab.clauseTable.filterMap id) ", " ++ ")") ++
          "\x7b" ++ ab.createFieldsClause d ++ "\x7d\x7d\x7d"
      else
        "\x7bAggregate\x7b" ++ ab.className ++ "\x7b" ++ ab.createFieldsClause d ++
          "\x7d\x7d\x7d" := by
  unfold AggregateBuilder.build AggregateBuilder.createFilterClause AggregateBuilder.clauseTable
  cases ab.includesFilterClause
  · apply String.ext
    simp
  · simp only [appendBuilt_eq, ite_append_eq]
    simp only [filterMap_id_cons, List.filterMap_nil, List.append_nil, List.nil_append,
      List.append_assoc, if_true]

/-- C9 (the code at the failing input). After `WithClassName("Band")` and
`WithObjectLimit(5)` the clause `objectLimit: 5` is present in the clause table, but
`build` writes no parenthesised part: `WithObjectLimit` does not set
`includesFilterClause`. -/
theorem AggregateBuilder.build_objectLimit_alone :
    exampleObjectLimit.clauseTable.filterMap id = ["objectLimit: 5"] ∧
    exampleObjectLimit.build specDeps = "\x7bAggregate\x7bBand\x7b\x7d\x7d\x7d" ∧
    exampleObjectLimit.build specDeps ≠
      "\x7bAggregate\x7bBand(objectLimit: 5)\x7b\x7d\x7d\x7d" := by
  refine ⟨by decide, by decide, by decide⟩

/-- C10 (the code at the failing input). For the property name `a"b` the groupBy
fragment holds the name as it is, between two double quotes, with the inner double
quote unescaped; it is not the quoted literal of the name. -/
theorem AggregateBuilder.groupBy_unescaped :
    exampleQuoteInName.createFilterClause = "(groupBy: \"a\"b\")" ∧
    strconvQuote "a\"b" = "\"a\\\"b\"" ∧
    exampleQuoteInName.createFilterClause ≠ "(groupBy: " ++ strconvQuote "a\"b" ++ ")" := by
  refine ⟨by decide, by decide, by decide⟩

/-! ### Setter calls -/

/-- Two setter calls on different clauses commute. -/
theorem GetSetter.run_comm (gb : GetBuilder) (a b : GetSetter) (h : a.target ≠ b.target) :
    GetSetter.run (GetSetter.run gb a) b = GetSetter.run (GetSetter.run gb b) a := by
  cases a <;> cases b <;> first | rfl | exact absurd rfl h

/-- C8. For every sequence of setter calls that target pairwise different clauses,
every permutation of the calls leaves the resulting builder, and so the string and
the builder that `build` returns, unchanged. -/
theorem GetSetter.runAll_perm (d : Deps) (gb : GetBuilder) (calls calls2 : List GetSetter)
    (hperm : calls.Perm calls2) (hnodup : (calls.map GetSetter.target).Nodup) :
    GetSetter.runAll gb calls = GetSetter.runAll gb calls2 ∧
      (GetSetter.runAll gb calls).build d = (GetSetter.runAll gb calls2).build d := by
  have hstate : GetSetter.runAll gb calls = GetSetter.runAll gb calls2 := by
    unfold GetSetter.runAll
    apply List.Perm.foldl_eq' hperm
    intro x hx y hy z
    by_cases hxy : x.target = y.target
    · have : x = y := List.inj_on_of_nodup_map hnodup hx hy hxy
      subst this
      rfl
    · exact GetSetter.run_comm z x y hxy
  exact ⟨hstate, by rw [hstate]⟩

/-- C8 (witness): `WithLimit(5)`, `WithWhere(w)`, `WithAfter(id)` and the same calls
in reverse order. -/
theorem GetSetter.runAll_perm_witness :
    exampleCalls.Perm exampleCalls.reverse ∧
    (exampleCalls.map GetSetter.target).Nodup ∧
    GetSetter.runAll {} exampleCalls = GetSetter.runAll {} exampleCalls.reverse ∧
    (GetSetter.runAll {} exampleCalls).build specDeps =
      (GetSetter.runAll {} exampleCalls.reverse).build specDeps :=
  ⟨(List.reverse_perm exampleCalls).symm, by decide,
    GetSetter.runAll_perm specDeps {} exampleCalls exampleCalls.reverse
      (List.reverse_perm exampleCalls).symm (by decide)⟩

/-! ### Scenarios of `GetBuilder.build` -/

/-- C11. For every class name `c` and every integer `n`, the `GetBuilder` on which only
`WithClassName(c)` and `WithLimit(n)` were called builds the class name, one space, the
clause `(limit: n)` with `n` in decimal, one space and the braces of the empty fields
clause; for `Band` and 5 this is the string of the scenario, and the limit 0 is written
as `limit: 0`. -/
theorem GetBuilder.build_limit (d : Deps) (c : String) (n : Int) :
    (((({} : GetBuilder).WithClassName c).WithLimit n).build d).1 =
        "\x7bGet \x7b" ++ c ++ " (limit: " ++ fmtInt n ++ ") \x7b\x7d\x7d\x7d" ∧
      (((({} : GetBuilder).WithClassName "Band").WithLimit 5).build d).1 =
        "\x7bGet \x7bBand (limit: 5) \x7b\x7d\x7d\x7d" ∧
      (((({} : GetBuilder).WithClassName c).WithLimit 0).build d).1 =
        "\x7bGet \x7b" ++ c ++ " (limit: 0) \x7b\x7d\x7d\x7d" := by
  have key : ∀ (c : String) (n : Int),
      (((({} : GetBuilder).WithClassName c).WithLimit n).build d).1 =
        "\x7bGet \x7b" ++ c ++ " (limit: " ++ fmtInt n ++ ") \x7b\x7d\x7d\x7d" := by
    intro c n
    simp only [GetBuilder.build, GetBuilder.WithLimit, GetBuilder.WithClassName,
      GetBuilder.createFilterClause, GetBuilder.createFieldsClause, GetBuilder.appendBuilt,
      Slice.len]
    apply String.ext
    simp [stringsJoin]
  have h0 : fmtInt 0 = "0" := rfl
  refine ⟨key c n, ?_, ?_⟩
  · rw [key]
    rfl
  · rw [key, h0]
    apply String.ext
    simp

/-- C12. For every class name `c`, the `GetBuilder` with only the class name set builds
the class name followed by two spaces and the braces of the empty fields clause. -/
theorem GetBuilder.build_className_only (d : Deps) (c : String) :
    ((({} : GetBuilder).WithClassName c).build d).1 =
      "\x7bGet \x7b" ++ c ++ "  \x7b\x7d\x7d\x7d" := by
  simp only [GetBuilder.build, GetBuilder.WithClassName, GetBuilder.createFieldsClause,
    Slice.len]
  apply String.ext
  simp

/-! ### The fields clause of `AggregateBuilder` -/

/-- C15. The fields clause of an `AggregateBuilder` is the serialization of every
requested field, in order, joined by single spaces, nothing filtered and nothing
merged: three requested fields give their three serializations with a space between
each two, also when one of them is empty; with no requested field the clause is the
empty string. -/
theorem AggregateBuilder.createFieldsClause_eq (d : Deps) (ab : AggregateBuilder)
    (f g h : Field) :
    ab.createFieldsClause d = stringsJoin (ab.fields.map d.fieldBuild) " " ∧
      (ab.WithFields [f, g, h]).createFieldsClause d =
        d.fieldBuild f ++ " " ++ (d.fieldBuild g ++ " " ++ d.fieldBuild h) ∧
      (ab.WithFields []).createFieldsClause d = "" := by
  refine ⟨?_, rfl, rfl⟩
  unfold AggregateBuilder.createFieldsClause
  cases hf : ab.fields with
  | nil => rfl
  | cons x xs => simp

/-! ### Last write wins -/

/-- C13. Applying a setter of `GetBuilder` or of `AggregateBuilder` with an argument
and then the same setter with a second argument gives the builder, and so the result
of `build`, that the setter gives with the second argument alone. -/
theorem last_write_wins (d : Deps) (gb : GetBuilder) (ab : AggregateBuilder)
    (a b : GetSetter) (a2 b2 : AggregateSetter)
    (h : a.target = b.target) (h2 : a2.target = b2.target) :
    GetSetter.run (GetSetter.run gb a) b = GetSetter.run gb b ∧
      (GetSetter.run (GetSetter.run gb a) b).build d = (GetSetter.run gb b).build d ∧
      AggregateSetter.run (AggregateSetter.run ab a2) b2 = AggregateSetter.run ab b2 ∧
      (AggregateSetter.run (AggregateSetter.run ab a2) b2).build d =
        (AggregateSetter.run ab b2).build d := by
  have hg : GetSetter.run (GetSetter.run gb a) b = GetSetter.run gb b := by
    cases a <;> cases b <;> first | rfl | simp [GetSetter.target] at h
  have ha : AggregateSetter.run (AggregateSetter.run ab a2) b2 = AggregateSetter.run ab b2 := by
    cases a2 <;> cases b2 <;> first | rfl | simp [AggregateSetter.target] at h2
  exact ⟨hg, by rw [hg], ha, by rw [ha]⟩

/-- C13 (witness): `WithLimit(3)` then `WithLimit(5)` on a `GetBuilder`, and
`WithGroupBy("a")` then `WithGroupBy("genre")` on an `AggregateBuilder`. -/
theorem last_write_wins_witness :
    (GetSetter.withLimit 3).target = (GetSetter.withLimit 5).target ∧
    (AggregateSetter.withGroupBy "a").target = (AggregateSetter.withGroupBy "genre").target ∧
    GetSetter.run (GetSetter.run {} (GetSetter.withLimit 3)) (GetSetter.withLimit 5) =
      GetSetter.run {} (GetSetter.withLimit 5) ∧
    AggregateSetter.run (AggregateSetter.run {} (AggregateSetter.withGroupBy "a"))
        (AggregateSetter.withGroupBy "genre") =
      AggregateSetter.run {} (AggregateSetter.withGroupBy "genre") :=
  have w := last_write_wins specDeps {} {} (GetSetter.withLimit 3) (GetSetter.withLimit 5)
    (AggregateSetter.withGroupBy "a") (AggregateSetter.withGroupBy "genre") rfl rfl
  ⟨rfl, rfl, w.1, w.2.2.1⟩

/-! ### `WithAfter` -/

theorem run_withoutAfter (gb : GetBuilder) (c : GetSetter) :
    (GetSetter.run gb c).withoutAfter =
      if c.isWithAfter then gb.withoutAfter else GetSetter.run gb.withoutAfter c := by
  cases c <;> rfl

theorem runAll_withoutAfter (calls : List GetSetter) (gb1 gb2 : GetBuilder)
    (h : gb1.withoutAfter = gb2.withoutAfter) :
    (GetSetter.runAll gb1 calls).withoutAfter =
      (GetSetter.runAll gb2 (calls.filter (fun c => !c.isWithAfter))).withoutAfter := by
  induction calls generalizing gb1 gb2 with
  | nil => exact h
  | cons c cs ih =>
    cases hc : c.isWithAfter
    · have e : (GetSetter.run gb1 c).withoutAfter = (GetSetter.run gb2 c).withoutAfter := by
        rw [run_withoutAfter, run_withoutAfter, hc, h]
      simpa [GetSetter.runAll, List.filter, hc] using ih _ _ e
    · have e : (GetSetter.run gb1 c).withoutAfter = gb2.withoutAfter := by
        rw [run_withoutAfter, hc, ← h]
        rfl
      simpa [GetSetter.runAll, List.filter, hc] using ih _ _ e

theorem run_keeps_filterClause (gb : GetBuilder) (c : GetSetter)
    (h : c.setsFilterClause = false) :
    (GetSetter.run gb c).includesFilterClause = gb.includesFilterClause := by
  cases c <;> first | rfl | simp [GetSetter.setsFilterClause] at h

theorem run_sets_filterClause (gb : GetBuilder) (c : GetSetter)
    (h : c.setsFilterClause = true) :
    (GetSetter.run gb c).includesFilterClause = true := by
  cases c <;> first | rfl | simp [GetSetter.setsFilterClause] at h

theorem runAll_keeps_filterClause (calls : List GetSetter) (gb : GetBuilder)
    (h : ∀ c ∈ calls, c.setsFilterClause = false) :
    (GetSetter.runAll gb calls).includesFilterClause = gb.includesFilterClause := by
  induction calls generalizing gb with
  | nil => rfl
  | cons c cs ih =>
    have h1 := run_keeps_filterClause gb c (h c (by simp))
    have h2 := ih (GetSetter.run gb c) (fun x hx => h x (by simp [hx]))
    simpa [GetSetter.runAll, h1] using h2

theorem build_withoutAfter (d : Deps) (gb : GetBuilder) (h : gb.includesFilterClause = false) :
    (gb.withoutAfter.build d).1 = (gb.build d).1 := by
  have hf : (gb.withoutAfter.createFieldsClause d).1 = (gb.createFieldsClause d).1 := by
    unfold GetBuilder.createFieldsClause GetBuilder.withoutAfter
    simp only []
    split <;> [rfl; skip]
    split <;> [rfl; skip]
    split <;> [rfl; skip]
    split <;> rfl
  have hflag : gb.withoutAfter.includesFilterClause = false := h
  have hname : gb.withoutAfter.className = gb.className := rfl
  simp [GetBuilder.build, hflag, h, hf, hname]

/-- C16. On a `GetBuilder` on which no filter setter other than `WithAfter` has been
called, `build` returns the string it returns without the `WithAfter` calls: the
cursor is absent from the query.  With `WithLimit` also called the fragment
`after: <quoted id>` is written after the limit, and with limit, offset and sort set
it stands between the offset and the sort fragment. -/
theorem GetBuilder.build_after_alone (d : Deps) (calls : List GetSetter)
    (c id : String) (n m : Int) (srt : SortBuilder)
    (hno : ∀ x ∈ calls, x.setsFilterClause = false) :
    ((GetSetter.runAll {} calls).build d).1 =
        ((GetSetter.runAll {} (calls.filter (fun x => !x.isWithAfter))).build d).1 ∧
      ((((({} : GetBuilder).WithClassName c).WithAfter id).WithLimit n).build d).1 =
        "\x7bGet \x7b" ++ c ++ " (limit: " ++ fmtInt n ++ ", after: " ++ d.quote id ++
          ") \x7b\x7d\x7d\x7d" ∧
      ((((((({} : GetBuilder).WithClassName c).WithSort srt).WithAfter id).WithOffset m).WithLimit
          n).build d).1 =
        "\x7bGet \x7b" ++ c ++ " (limit: " ++ fmtInt n ++ ", offset: " ++ fmtInt m ++
          ", after: " ++ d.quote id ++ ", " ++ srt.build ++ ") \x7b\x7d\x7d\x7d" := by
  refine ⟨?_, ?_, ?_⟩
  · have hno2 : ∀ x ∈ calls.filter (fun x => !x.isWithAfter), x.setsFilterClause = false :=
      fun x hx => hno x (List.mem_filter.mp hx).1
    have f1 := runAll_keeps_filterClause calls {} hno
    have f2 := runAll_keeps_filterClause _ {} hno2
    have e := runAll_withoutAfter calls {} {} rfl
    rw [← build_withoutAfter d _ f1, ← build_withoutAfter d _ f2, e]
  · simp only [GetBuilder.build, GetBuilder.WithLimit, GetBuilder.WithClassName,
      GetBuilder.WithAfter, GetBuilder.createFilterClause, GetBuilder.createFieldsClause,
      GetBuilder.appendBuilt, Slice.len]
    apply String.ext
    simp [stringsJoin]
  · simp only [GetBuilder.build, GetBuilder.WithLimit, GetBuilder.WithClassName,
      GetBuilder.WithAfter, GetBuilder.WithOffset, GetBuilder.WithSort,
      GetBuilder.createFilterClause, GetBuilder.createFieldsClause,
      GetBuilder.appendBuilt, Slice.len]
    apply String.ext
    simp [stringsJoin]

/-- C16 (witness): the calls `WithClassName("Band")`, `WithAfter("id-1")`,
`WithFields(name)`; the query is the one built without the cursor. -/
theorem GetBuilder.build_after_alone_witness :
    (∀ x ∈ exampleAfterCalls, x.setsFilterClause = false) ∧
    ((GetSetter.runAll {} exampleAfterCalls).build specDeps).1 =
      ((GetSetter.runAll {} (exampleAfterCalls.filter (fun x => !x.isWithAfter))).build
        specDeps).1 ∧
    ((GetSetter.runAll {} exampleAfterCalls).build specDeps).1 =
      "\x7bGet \x7bBand  \x7bname\x7d\x7d\x7d" :=
  ⟨by decide,
    (GetBuilder.build_after_alone specDeps exampleAfterCalls "Band" "id-1" 5 0 ⟨"sort"⟩
      (by decide)).1,
    by decide⟩

/-! ### `joinFields` -/

theorem length_pos_iff (s : String) : 0 < s.length ↔ s ≠ "" := by
  constructor
  · intro h hs
    subst hs
    exact absurd h (by decide)
  · exact length_pos_of_ne_empty s

theorem data_ne_nil_iff (s : String) : s.data ≠ [] ↔ s ≠ "" := by
  constructor
  · intro h hs
    subst hs
    exact h rfl
  · intro h hd
    apply h
    apply String.ext
    simpa using hd

theorem joinFieldsLoop_eq (d : Deps) (fs : List Field) :
    joinFieldsLoop d fs =
      (fs.map (fun x => stringsTrimSpace (d.fieldBuild x))).filter (fun s => s ≠ "") := by
  induction fs with
  | nil => rfl
  | cons f fs ih =>
    by_cases h : stringsTrimSpace (d.fieldBuild f) = ""
    · have hl : ¬ (0 < (stringsTrimSpace (d.fieldBuild f)).length) := by
        rw [length_pos_iff]
        exact fun hn => hn h
      simp [joinFieldsLoop, hl, h, ih]
    · have hl : 0 < (stringsTrimSpace (d.fieldBuild f)).length := (length_pos_iff _).mpr h
      simp [joinFieldsLoop, hl, h, ih]

theorem trim_head (x : String) (c : Char)
    (h : (stringsTrimSpace x).data.head? = some c) : unicodeIsSpace c = false := by
  have hpre : (x.data.dropWhile unicodeIsSpace).rdropWhile unicodeIsSpace <+:
      x.data.dropWhile unicodeIsSpace := List.rdropWhile_prefix _ _
  obtain ⟨t, ht⟩ := hpre
  have hnot := List.head?_dropWhile_not unicodeIsSpace x.data
  have hd : (stringsTrimSpace x).data =
      (x.data.dropWhile unicodeIsSpace).rdropWhile unicodeIsSpace := rfl
  rw [hd] at h
  cases hr : (x.data.dropWhile unicodeIsSpace).rdropWhile unicodeIsSpace with
  | nil => simp [hr] at h
  | cons y ys =>
    rw [hr] at h ht
    simp at h
    subst h
    rw [← ht] at hnot
    simpa using hnot

theorem trim_last (x : String) (c : Char)
    (h : (stringsTrimSpace x).data.getLast? = some c) : unicodeIsSpace c = false := by
  have hd : (stringsTrimSpace x).data =
      (x.data.dropWhile unicodeIsSpace).rdropWhile unicodeIsSpace := rfl
  rw [hd] at h
  have hne : (x.data.dropWhile unicodeIsSpace).rdropWhile unicodeIsSpace ≠ [] := by
    intro hnil
    simp [hnil] at h
  have hlast := List.rdropWhile_last_not unicodeIsSpace (x.data.dropWhile unicodeIsSpace) hne
  rw [List.getLast?_eq_getLast _ hne] at h
  simp at h
  rw [← h]
  simpa using hlast

theorem stringsJoin_ne_empty (a : String) (L : List String) (ha : a ≠ "") :
    stringsJoin (a :: L) " " ≠ "" := by
  cases L with
  | nil => exact ha
  | cons b rest =>
    intro h
    have hdata := congrArg String.data h
    simp [stringsJoin] at hdata

theorem stringsJoin_eq_empty_iff (L : List String) (hne : ∀ s ∈ L, s ≠ "") :
    stringsJoin L " " = "" ↔ L = [] := by
  cases L with
  | nil => simp [stringsJoin]
  | cons a rest =>
    have := stringsJoin_ne_empty a rest (hne a (by simp))
    simp [this]

theorem stringsJoin_head_mem (L : List String) (hne : ∀ s ∈ L, s ≠ "") (c : Char)
    (h : (stringsJoin L " ").data.head? = some c) : ∃ s ∈ L, s.data.head? = some c := by
  cases L with
  | nil => simp [stringsJoin] at h
  | cons a rest =>
    cases rest with
    | nil => exact ⟨a, by simp, h⟩
    | cons b rest =>
      have ha : a.data ≠ [] := (data_ne_nil_iff a).mpr (hne a (by simp))
      refine ⟨a, by simp, ?_⟩
      cases hd : a.data with
      | nil => exact absurd hd ha
      | cons y ys =>
        simp [stringsJoin, hd] at h
        simp [h]

theorem stringsJoin_last_mem (L : List String) (hne : ∀ s ∈ L, s ≠ "") (c : Char)
    (h : (stringsJoin L " ").data.getLast? = some c) : ∃ s ∈ L, s.data.getLast? = some c := by
  induction L with
  | nil => simp [stringsJoin] at h
  | cons a rest ih =>
    cases rest with
    | nil => exact ⟨a, by simp, h⟩
    | cons b rest =>
      have hb : stringsJoin (b :: rest) " " ≠ "" :=
        stringsJoin_ne_empty b rest (hne b (by simp))
      have hbd : (stringsJoin (b :: rest) " ").data ≠ [] := (data_ne_nil_iff _).mpr hb
      have hsplit : (stringsJoin (a :: b :: rest) " ").data =
          (a.data ++ [' ']) ++ (stringsJoin (b :: rest) " ").data := by
        simp [stringsJoin]
      rw [hsplit, List.getLast?_append_of_ne_nil _ hbd] at h
      obtain ⟨s, hs, hc⟩ := ih (fun s hs => hne s (by simp [hs])) h
      exact ⟨s, by simp [hs], hc⟩

theorem joinFieldsLoop_mem (d : Deps) (fs : List Field) (s : String)
    (hs : s ∈ joinFieldsLoop d fs) :
    s ≠ "" ∧ ∃ x ∈ fs, s = stringsTrimSpace (d.fieldBuild x) := by
  rw [joinFieldsLoop_eq] at hs
  obtain ⟨hm, hne⟩ := List.mem_filter.mp hs
  obtain ⟨x, hx, rfl⟩ := List.mem_map.mp hm
  exact ⟨by simpa using hne, x, hx, rfl⟩

/-- C14. `joinFields` is the serializations of the fields, trimmed of white space, in
order, without those that are empty after trimming, joined by one space.  So a field
whose trimmed serialization is empty can be inserted or removed at any position
without changing the result; the result neither starts nor ends with white space; and
it is empty exactly when every field has an empty trimmed serialization. -/
theorem joinFields_spec (d : Deps) (fs pre post : List Field) (f : Field)
    (hf : stringsTrimSpace (d.fieldBuild f) = "") :
    joinFields d fs =
        stringsJoin
          ((fs.map (fun x => stringsTrimSpace (d.fieldBuild x))).filter (fun s => s ≠ "")) " " ∧
      joinFields d (pre ++ f :: post) = joinFields d (pre ++ post) ∧
      (∀ c, (joinFields d fs).data.head? = some c → unicodeIsSpace c = false) ∧
      (∀ c, (joinFields d fs).data.getLast? = some c → unicodeIsSpace c = false) ∧
      (joinFields d fs = "" ↔ ∀ x ∈ fs, stringsTrimSpace (d.fieldBuild x) = "") := by
  have hne : ∀ s ∈ joinFieldsLoop d fs, s ≠ "" := fun s hs => (joinFieldsLoop_mem d fs s hs).1
  refine ⟨?_, ?_, ?_, ?_, ?_⟩
  · rw [joinFields, joinFieldsLoop_eq]
  · simp [joinFields, joinFieldsLoop_eq, List.filter_cons, hf]
  · intro c hc
    obtain ⟨s, hs, hsc⟩ := stringsJoin_head_mem _ hne c hc
    obtain ⟨_, x, _, rfl⟩ := joinFieldsLoop_mem d fs s hs
    exact trim_head _ c hsc
  · intro c hc
    obtain ⟨s, hs, hsc⟩ := stringsJoin_last_mem _ hne c hc
    obtain ⟨_, x, _, rfl⟩ := joinFieldsLoop_mem d fs s hs
    exact trim_last _ c hsc
  · rw [joinFields, stringsJoin_eq_empty_iff _ hne, joinFieldsLoop_eq]
    simp [List.filter_eq_nil_iff]

/-- C14 (witness): the field without name and children between `name` and
`_additional`. -/
theorem joinFields_spec_witness :
    stringsTrimSpace (specDeps.fieldBuild exampleEmptyField) = "" ∧
    joinFields specDeps ([exampleName] ++ exampleEmptyField :: [exampleAdditional]) =
      joinFields specDeps ([exampleName] ++ [exampleAdditional]) ∧
    joinFields specDeps ([exampleName] ++ exampleEmptyField :: [exampleAdditional]) =
      "name _additional \x7b id \x7d" :=
  ⟨by decide,
    (joinFields_spec specDeps [] [exampleName] [exampleAdditional] exampleEmptyField
      (by decide)).2.1,
    by decide⟩

end Graphql

namespace Misc

/-! ### `misc.go` -/

/-- C17. The result of `openIDConfigGetter.Do` as a function of the transport result:
the transport error unchanged when the transport fails; no configuration and no error
for the status 404; for the status 200 the decoded configuration without error, or
the decode error; the unexpected-status-code error for every other status.  So it
returns no configuration and no error exactly when the transport succeeded with the
status 404. -/
theorem openIDConfigGetter.Do_cases {E C : Type} (k : Codec E C) (connection : Connection E) :
    (∀ err, connection.RunREST "/.well-known/openid-configuration" httpMethodGet = .error err →
        openIDConfigGetter.Do k connection = (none, some err)) ∧
      (∀ r, connection.RunREST "/.well-known/openid-configuration" httpMethodGet = .ok r →
        r.StatusCode = 404 → openIDConfigGetter.Do k connection = (none, none)) ∧
      (∀ r cfg, connection.RunREST "/.well-known/openid-configuration" httpMethodGet = .ok r →
        r.StatusCode = 200 → k.DecodeBodyIntoTarget r = .ok cfg →
        openIDConfigGetter.Do k connection = (some cfg, none)) ∧
      (∀ r decodeErr,
        connection.RunREST "/.well-known/openid-configuration" httpMethodGet = .ok r →
        r.StatusCode = 200 → k.DecodeBodyIntoTarget r = .error decodeErr →
        openIDConfigGetter.Do k connection = (none, some decodeErr)) ∧
      (∀ r, connection.RunREST "/.well-known/openid-configuration" httpMethodGet = .ok r →
        r.StatusCode ≠ 404 → r.StatusCode ≠ 200 →
        openIDConfigGetter.Do k connection =
          (none, some (k.NewUnexpectedStatusCodeError r.StatusCode r.Body))) ∧
      (openIDConfigGetter.Do k connection = (none, none) ↔
        ∃ r, connection.RunREST "/.well-known/openid-configuration" httpMethodGet = .ok r ∧
          r.StatusCode = 404) := by
  refine ⟨?_, ?_, ?_, ?_, ?_, ?_⟩
  · intro err h
    simp [openIDConfigGetter.Do, h]
  · intro r h h404
    simp [openIDConfigGetter.Do, h, h404]
  · intro r cfg h h200 hd
    simp [openIDConfigGetter.Do, h, h200, hd]
  · intro r decodeErr h h200 hd
    simp [openIDConfigGetter.Do, h, h200, hd]
  · intro r h h404 h200
    simp [openIDConfigGetter.Do, h, h404, h200]
  · unfold openIDConfigGetter.Do
    cases h : connection.RunREST "/.well-known/openid-configuration" httpMethodGet with
    | error err => simp
    | ok r =>
      by_cases h404 : r.StatusCode = 404
      · simp [h404]
      · by_cases h200 : r.StatusCode = 200
        · cases hd : k.DecodeBodyIntoTarget r <;> simp [h404, h200, hd]
        · simp [h404, h200]

/-- C17 (witness): a connection answering 404, one answering 200 with a body that
decodes, one answering 200 with a body that does not decode, one answering 500, and
one that fails. -/
theorem openIDConfigGetter.Do_cases_witness :
    openIDConfigGetter.Do exampleCodec (exampleFailing "no route") = (none, some "no route") ∧
    openIDConfigGetter.Do exampleCodec (exampleConnection 404 "") = (none, none) ∧
    openIDConfigGetter.Do exampleCodec (exampleConnection 200 "cfg") = (some "cfg", none) ∧
    openIDConfigGetter.Do exampleCodec (exampleConnection 200 "bad") =
      (none, some "decode error") ∧
    openIDConfigGetter.Do exampleCodec (exampleConnection 500 "oops") =
      (none, some "status code: 500, error: oops") :=
  ⟨(openIDConfigGetter.Do_cases exampleCodec (exampleFailing "no route")).1 "no route" rfl,
    (openIDConfigGetter.Do_cases exampleCodec (exampleConnection 404 "")).2.1 _ rfl rfl,
    (openIDConfigGetter.Do_cases exampleCodec (exampleConnection 200 "cfg")).2.2.1 _ _ rfl rfl
      rfl,
    (openIDConfigGetter.Do_cases exampleCodec (exampleConnection 200 "bad")).2.2.2.1 _ _ rfl rfl
      rfl,
    (openIDConfigGetter.Do_cases exampleCodec (exampleConnection 500 "oops")).2.2.2.2.1 _ rfl
      (by decide) (by decide)⟩

/-- C18. `readyChecker.Do` and `liveChecker.Do` are the same function of the transport
result: on equal transport results they return the same pair; the boolean is true
exactly when the transport returned a response with the status code 200, and an error
is returned exactly when the transport returned an error, which is then that error. -/
theorem checkers_Do {E : Type} (ready live : Connection E) (t : Except E ResponseData)
    (hr : ready.RunREST "/.well-known/ready" httpMethodGet = t)
    (hl : live.RunREST "/.well-known/live" httpMethodGet = t) :
    readyChecker.Do ready = liveChecker.Do live ∧
      ((readyChecker.Do ready).1 = true ↔ ∃ r, t = .ok r ∧ r.StatusCode = 200) ∧
      (∀ err, (readyChecker.Do ready).2 = some err ↔ t = .error err) ∧
      (∀ r, t = .ok r → r.StatusCode ≠ 200 → readyChecker.Do ready = (false, none)) := by
  subst hl
  unfold readyChecker.Do liveChecker.Do
  rw [hr]
  refine ⟨rfl, ?_, ?_, ?_⟩
  · cases h : live.RunREST "/.well-known/live" httpMethodGet with
    | error err => simp
    | ok r => by_cases h200 : r.StatusCode = 200 <;> simp [h200]
  · intro err
    cases h : live.RunREST "/.well-known/live" httpMethodGet with
    | error e => simp
    | ok r => by_cases h200 : r.StatusCode = 200 <;> simp [h200]
  · intro r h h200
    simp [h, h200]

/-- C18 (witness): two connections answering every request with the status 503. -/
theorem checkers_Do_witness :
    readyChecker.Do (exampleConnection 503 "") = liveChecker.Do (exampleConnection 503 "") ∧
    readyChecker.Do (exampleConnection 503 "") = (false, none) ∧
    readyChecker.Do (exampleConnection 200 "") = (true, none) :=
  have w := checkers_Do (exampleConnection 503 "") (exampleConnection 503 "")
    (.ok { Body := "", StatusCode := 503 }) rfl rfl
  ⟨w.1, w.2.2.2 _ rfl (by decide), rfl⟩

end Misc
